import Mathlib

/-!
Verification of the rendering-backend core of a character-grid display
toolkit (canvas-surface base, text-surface base and the hexagonal
geometry engine, files `src/display/canvas.ts`, `src/display/hex.ts`,
`src/display/types.ts`).

Numbers: the source computes with JavaScript numbers; we idealise that
arithmetic as exact arithmetic in the field ℚ(√3), realised as the
computable type `Q3` of pairs `a + b·√3` with `a b : ℚ`.  Every number
the hex geometry engine ever produces from rational inputs lies in this
field, and all of its comparisons, floors and ceilings are decidable, so
concrete runs of the embedded code can be evaluated inside proofs (by
`norm_num` over the rational components, with bracketing certificates for
floors and ceilings).  The (noncomputable) evaluation map `Q3.toReal`
into ℝ is used only inside proofs, to transfer order and floor reasoning
to the real numbers.
-/

/-- An element `a + b * √3` of the field ℚ(√3). -/
structure Q3 where
  a : ℚ
  b : ℚ
deriving DecidableEq

namespace Q3

instance (n : ℕ) : OfNat Q3 n := ⟨⟨(n : ℚ), 0⟩⟩

instance : IntCast Q3 := ⟨fun n => ⟨(n : ℚ), 0⟩⟩

instance : RatCast Q3 := ⟨fun q => ⟨q, 0⟩⟩

instance : Add Q3 := ⟨fun x y => ⟨x.a + y.a, x.b + y.b⟩⟩

instance : Neg Q3 := ⟨fun x => ⟨-x.a, -x.b⟩⟩

instance : Sub Q3 := ⟨fun x y => ⟨x.a - y.a, x.b - y.b⟩⟩

instance : Mul Q3 := ⟨fun x y => ⟨x.a * y.a + 3 * (x.b * y.b), x.a * y.b + x.b * y.a⟩⟩

instance : Inv Q3 := ⟨fun x => ⟨x.a / (x.a ^ 2 - 3 * x.b ^ 2), -x.b / (x.a ^ 2 - 3 * x.b ^ 2)⟩⟩

instance : Div Q3 := ⟨fun x y => x * y⁻¹⟩

/-- The element √3 itself (the value of the source's `Math.sqrt(3)`). -/
def sqrt3 : Q3 := ⟨0, 1⟩

/-- Nonnegativity of `a + b*√3`, characterised by sign analysis and
comparison of squares (decidable over ℚ). -/
def Nonneg (x : Q3) : Prop :=
  (0 ≤ x.a ∧ 0 ≤ x.b) ∨
  (0 ≤ x.a ∧ x.b < 0 ∧ 3 * x.b ^ 2 ≤ x.a ^ 2) ∨
  (x.a < 0 ∧ 0 ≤ x.b ∧ x.a ^ 2 ≤ 3 * x.b ^ 2)

instance (x : Q3) : Decidable x.Nonneg :=
  inferInstanceAs (Decidable (_ ∨ _ ∨ _))

instance : LE Q3 := ⟨fun x y => (y - x).Nonneg⟩

instance : LT Q3 := ⟨fun x y => ¬ (y ≤ x)⟩

instance (x y : Q3) : Decidable (x ≤ y) :=
  inferInstanceAs (Decidable (y - x).Nonneg)

instance (x y : Q3) : Decidable (x < y) :=
  inferInstanceAs (Decidable (¬ (y ≤ x)))

/-- `Math.min` on ℚ(√3). -/
def minq (x y : Q3) : Q3 := if x ≤ y then x else y

/-- `⌊b * √3⌋` computed from the rational `b` alone (`√3` is irrational,
so for `b < 0` the value `b*√3` is never an integer). -/
def sqrt3Floor (b : ℚ) : ℤ :=
  if 0 ≤ b then ((⌊3 * b ^ 2⌋).toNat.sqrt : ℤ)
  else -((⌊3 * b ^ 2⌋).toNat.sqrt : ℤ) - 1

/-- `Math.floor` on ℚ(√3): start from the sum of the floors of the two
parts and correct by one decidable comparison. -/
def floorq (x : Q3) : ℤ :=
  let c := ⌊x.a⌋ + sqrt3Floor x.b
  if ((c + 1 : ℤ) : Q3) ≤ x then c + 1 else c

/-- `Math.ceil` on ℚ(√3). -/
def ceilq (x : Q3) : ℤ := -floorq (-x)

/-- Evaluation into ℝ (proof-side only). -/
noncomputable def toReal (x : Q3) : ℝ := (x.a : ℝ) + (x.b : ℝ) * Real.sqrt 3

theorem sqrt3_pos : (0 : ℝ) < Real.sqrt 3 := Real.sqrt_pos.mpr (by norm_num)

theorem sq_sqrt3 : Real.sqrt 3 ^ 2 = 3 := Real.sq_sqrt (by norm_num)

theorem mul_self_sqrt3 : Real.sqrt 3 * Real.sqrt 3 = 3 := by
  have := sq_sqrt3
  nlinarith [this]

theorem sqrt3_irrational : Irrational (Real.sqrt 3) := by
  simpa using (Nat.prime_three).irrational_sqrt

/-- A rational multiple `b*√3` equals a rational only when `b = 0`. -/
theorem ratMul_sqrt3_eq_rat {b q : ℚ} (h : (b : ℝ) * Real.sqrt 3 = (q : ℝ)) : b = 0 := by
  by_contra hb
  have : Irrational ((b : ℝ) * Real.sqrt 3) := by
    simpa using sqrt3_irrational.rat_mul hb
  exact this ⟨q, h.symm⟩

/-- A rational square can equal three times a rational square only trivially. -/
theorem rat_sq_eq_three_sq {a b : ℚ} (h : a ^ 2 = 3 * b ^ 2) : a = 0 ∧ b = 0 := by
  by_cases hb : b = 0
  · subst hb
    have ha : a = 0 := by
      have h0 : a ^ 2 = 0 := by linarith
      exact pow_eq_zero_iff (by norm_num) |>.mp h0
    exact ⟨ha, rfl⟩
  · exfalso
    have hq : ((a / b : ℚ) : ℝ) ^ 2 = 3 := by
      have hR : (a : ℝ) ^ 2 = 3 * (b : ℝ) ^ 2 := by exact_mod_cast h
      have hbR : (b : ℝ) ≠ 0 := by exact_mod_cast hb
      push_cast
      rw [div_pow, hR]
      field_simp
    have habs : Real.sqrt 3 = |((a / b : ℚ) : ℝ)| := by
      rw [← Real.sqrt_sq_eq_abs, hq]
    rcases abs_choice ((a / b : ℚ) : ℝ) with hc | hc
    · exact sqrt3_irrational ⟨a / b, by rw [habs, hc]⟩
    · exact sqrt3_irrational ⟨-(a / b), by rw [habs, hc]; push_cast; ring⟩

theorem toReal_eq_zero {x : Q3} (h : toReal x = 0) : x.a = 0 ∧ x.b = 0 := by
  have hb : x.b = 0 := by
    apply ratMul_sqrt3_eq_rat (q := -x.a)
    unfold toReal at h
    push_cast
    linarith
  have ha : x.a = 0 := by
    unfold toReal at h
    rw [hb] at h
    push_cast at h
    have hR : (x.a : ℝ) = 0 := by linarith
    exact_mod_cast hR
  exact ⟨ha, hb⟩

@[simp] theorem toReal_mk (a b : ℚ) : toReal ⟨a, b⟩ = (a : ℝ) + (b : ℝ) * Real.sqrt 3 := rfl

@[simp] theorem toReal_add (x y : Q3) : toReal (x + y) = toReal x + toReal y := by
  cases x; cases y
  show toReal ⟨_, _⟩ = _
  simp only [toReal_mk]
  push_cast
  ring

@[simp] theorem toReal_neg (x : Q3) : toReal (-x) = -toReal x := by
  cases x
  show toReal ⟨_, _⟩ = _
  simp only [toReal_mk]
  push_cast
  ring

@[simp] theorem toReal_sub (x y : Q3) : toReal (x - y) = toReal x - toReal y := by
  cases x; cases y
  show toReal ⟨_, _⟩ = _
  simp only [toReal_mk]
  push_cast
  ring

@[simp] theorem toReal_mul (x y : Q3) : toReal (x * y) = toReal x * toReal y := by
  cases x with
  | mk a b =>
    cases y with
    | mk c d =>
      show toReal ⟨_, _⟩ = _
      simp only [toReal_mk]
      push_cast
      linear_combination (-(b : ℝ) * (d : ℝ)) * mul_self_sqrt3

@[simp] theorem toReal_ofNat (n : ℕ) :
    toReal (no_index (OfNat.ofNat n) : Q3) = (n : ℝ) := by
  show toReal ⟨(n : ℚ), 0⟩ = _
  simp only [toReal_mk]
  push_cast
  ring

@[simp] theorem toReal_intCast (n : ℤ) : toReal ((n : ℤ) : Q3) = (n : ℝ) := by
  show toReal ⟨(n : ℚ), 0⟩ = _
  simp only [toReal_mk]
  push_cast
  ring

@[simp] theorem toReal_ratCast (q : ℚ) : toReal ((q : ℚ) : Q3) = (q : ℝ) := by
  show toReal ⟨q, 0⟩ = _
  simp only [toReal_mk]
  ring

@[simp] theorem toReal_sqrt3 : toReal sqrt3 = Real.sqrt 3 := by
  show toReal ⟨0, 1⟩ = _
  simp only [toReal_mk]
  push_cast
  ring

@[simp] theorem toReal_inv (x : Q3) : toReal x⁻¹ = (toReal x)⁻¹ := by
  by_cases hd0 : x.a ^ 2 - 3 * x.b ^ 2 = 0
  · obtain ⟨ha, hb⟩ := rat_sq_eq_three_sq (by linarith : x.a ^ 2 = 3 * x.b ^ 2)
    show toReal ⟨x.a / _, -x.b / _⟩ = _
    rw [toReal_mk]
    unfold toReal
    rw [ha, hb]
    norm_num
  · have hd : ((x.a : ℝ) ^ 2 - 3 * (x.b : ℝ) ^ 2) ≠ 0 := by
      intro hh
      exact hd0 (by exact_mod_cast hh)
    have hr : toReal x ≠ 0 := by
      intro h
      obtain ⟨ha, hb⟩ := toReal_eq_zero h
      apply hd0
      rw [ha, hb]
      ring
    have hmul : toReal x⁻¹ * toReal x = 1 := by
      show toReal ⟨x.a / _, -x.b / _⟩ * toReal x = 1
      rw [toReal_mk]
      unfold toReal
      push_cast
      field_simp
      linear_combination (-(x.b : ℝ) ^ 2) * sq_sqrt3
    exact eq_inv_of_mul_eq_one_left hmul

@[simp] theorem toReal_div (x y : Q3) : toReal (x / y) = toReal x / toReal y := by
  show toReal (x * y⁻¹) = _
  rw [toReal_mul, toReal_inv, div_eq_mul_inv]

theorem nonneg_iff {x : Q3} : x.Nonneg ↔ 0 ≤ toReal x := by
  have h3 := mul_self_sqrt3
  have hp := sqrt3_pos
  unfold Nonneg toReal
  constructor
  · rintro (⟨ha, hb⟩ | ⟨ha, hb, h2⟩ | ⟨ha, hb, h2⟩)
    · have haR : (0 : ℝ) ≤ (x.a : ℝ) := by exact_mod_cast ha
      have hbR : (0 : ℝ) ≤ (x.b : ℝ) := by exact_mod_cast hb
      positivity
    · have haR : (0 : ℝ) ≤ (x.a : ℝ) := by exact_mod_cast ha
      have hbR : (x.b : ℝ) < 0 := by exact_mod_cast hb
      have hQ : 3 * (x.b : ℝ) ^ 2 ≤ (x.a : ℝ) ^ 2 := by exact_mod_cast h2
      have hminus : (0 : ℝ) ≤ (x.a : ℝ) - (x.b : ℝ) * Real.sqrt 3 := by nlinarith [hp]
      nlinarith [hQ, hminus, hp, h3]
    · have haR : (x.a : ℝ) < 0 := by exact_mod_cast ha
      have hbR : (0 : ℝ) ≤ (x.b : ℝ) := by exact_mod_cast hb
      have hQ : (x.a : ℝ) ^ 2 ≤ 3 * (x.b : ℝ) ^ 2 := by exact_mod_cast h2
      have hminus : (0 : ℝ) < -(x.a : ℝ) + (x.b : ℝ) * Real.sqrt 3 := by nlinarith [hp]
      nlinarith [hQ, hminus, hp, h3]
  · intro h
    rcases le_or_lt 0 x.a with ha | ha <;> rcases le_or_lt 0 x.b with hb | hb
    · exact Or.inl ⟨ha, hb⟩
    · refine Or.inr (Or.inl ⟨ha, hb, ?_⟩)
      have hbR : (x.b : ℝ) < 0 := by exact_mod_cast hb
      have haR : (0 : ℝ) ≤ (x.a : ℝ) := by exact_mod_cast ha
      have hminus : (0 : ℝ) ≤ (x.a : ℝ) - (x.b : ℝ) * Real.sqrt 3 := by nlinarith [hp]
      have hprod := mul_nonneg h hminus
      have hQ : 3 * (x.b : ℝ) ^ 2 ≤ (x.a : ℝ) ^ 2 := by nlinarith [hprod, h3]
      exact_mod_cast hQ
    · refine Or.inr (Or.inr ⟨ha, hb, ?_⟩)
      have hbR : (0 : ℝ) ≤ (x.b : ℝ) := by exact_mod_cast hb
      have haR : (x.a : ℝ) < 0 := by exact_mod_cast ha
      have hminus : (0 : ℝ) < -(x.a : ℝ) + (x.b : ℝ) * Real.sqrt 3 := by nlinarith [hp]
      have hprod := mul_nonneg h (le_of_lt hminus)
      have hQ : (x.a : ℝ) ^ 2 ≤ 3 * (x.b : ℝ) ^ 2 := by nlinarith [hprod, h3]
      exact_mod_cast hQ
    · exfalso
      have hbR : (x.b : ℝ) < 0 := by exact_mod_cast hb
      have haR : (x.a : ℝ) < 0 := by exact_mod_cast ha
      have hneg : (x.b : ℝ) * Real.sqrt 3 < 0 := mul_neg_of_neg_of_pos hbR hp
      linarith

theorem le_iff {x y : Q3} : x ≤ y ↔ toReal x ≤ toReal y := by
  show (y - x).Nonneg ↔ _
  rw [nonneg_iff, toReal_sub]
  constructor <;> intro h <;> linarith

theorem lt_iff {x y : Q3} : x < y ↔ toReal x < toReal y := by
  show ¬ (y ≤ x) ↔ _
  rw [le_iff]
  exact not_le

theorem toReal_minq (x y : Q3) : toReal (minq x y) = min (toReal x) (toReal y) := by
  unfold minq
  by_cases h : x ≤ y
  · rw [if_pos h, min_eq_left (le_iff.mp h)]
  · have hlt : toReal y < toReal x := not_le.mp (fun hh => h (le_iff.mpr hh))
    rw [if_neg h, min_eq_right (le_of_lt hlt)]

theorem sqrt3Floor_nonneg_eq {b : ℚ} (hb : 0 ≤ b) :
    sqrt3Floor b = ⌊(b : ℝ) * Real.sqrt 3⌋ := by
  have h3 := sq_sqrt3
  unfold sqrt3Floor
  rw [if_pos hb]
  have hbR : (0 : ℝ) ≤ (b : ℝ) := by exact_mod_cast hb
  set m : ℕ := (⌊(3 * b ^ 2 : ℚ)⌋).toNat with hm
  set n : ℕ := m.sqrt with hn
  have hfl0 : (0 : ℤ) ≤ ⌊(3 * b ^ 2 : ℚ)⌋ := Int.floor_nonneg.mpr (by positivity)
  have hm0 : ((m : ℤ) : ℚ) ≤ 3 * b ^ 2 := by
    rw [hm, Int.toNat_of_nonneg hfl0]
    exact Int.floor_le _
  have hm1 : 3 * b ^ 2 < ((m : ℤ) : ℚ) + 1 := by
    rw [hm, Int.toNat_of_nonneg hfl0]
    exact Int.lt_floor_add_one _
  have hsq : ((b : ℝ) * Real.sqrt 3) ^ 2 = 3 * (b : ℝ) ^ 2 := by
    rw [mul_pow, h3]
    ring
  have hval : (0 : ℝ) ≤ (b : ℝ) * Real.sqrt 3 := by positivity
  have hmR0 : ((m : ℝ)) ≤ 3 * (b : ℝ) ^ 2 := by exact_mod_cast hm0
  have hmR1 : 3 * (b : ℝ) ^ 2 < ((m : ℝ)) + 1 := by exact_mod_cast hm1
  have hns : ((n : ℝ)) ^ 2 ≤ (m : ℝ) := by exact_mod_cast Nat.sqrt_le' m
  have hm2 : ((m : ℝ)) + 1 ≤ ((n : ℝ) + 1) ^ 2 := by
    have hnat : m + 1 ≤ (n + 1) ^ 2 := Nat.lt_succ_sqrt' m
    exact_mod_cast hnat
  rw [eq_comm, Int.floor_eq_iff]
  constructor
  · push_cast
    refine le_of_pow_le_pow_left₀ (n := 2) (by norm_num) hval ?_
    rw [hsq]
    linarith
  · push_cast
    refine lt_of_pow_lt_pow_left₀ 2 (by positivity) ?_
    rw [hsq]
    linarith

theorem sqrt3Floor_eq (b : ℚ) : sqrt3Floor b = ⌊(b : ℝ) * Real.sqrt 3⌋ := by
  rcases le_or_lt 0 b with hb | hb
  · exact sqrt3Floor_nonneg_eq hb
  · have hpos := sqrt3Floor_nonneg_eq (b := -b) (by linarith)
    have hbne : (-b : ℚ) ≠ 0 := by
      intro h
      apply hb.ne
      linarith [neg_eq_zero.mp h]
    have hirr : Irrational (((-b : ℚ) : ℝ) * Real.sqrt 3) := by
      simpa using sqrt3_irrational.rat_mul hbne
    have hnotint : ((⌊((-b : ℚ) : ℝ) * Real.sqrt 3⌋ : ℤ) : ℝ) ≠ ((-b : ℚ) : ℝ) * Real.sqrt 3 := by
      intro h
      exact (hirr.ne_int _) h.symm
    have hfl : (⌊((-b : ℚ) : ℝ) * Real.sqrt 3⌋ : ℝ) < ((-b : ℚ) : ℝ) * Real.sqrt 3 :=
      lt_of_le_of_ne (Int.floor_le _) hnotint
    have hfu : ((-b : ℚ) : ℝ) * Real.sqrt 3 < (⌊((-b : ℚ) : ℝ) * Real.sqrt 3⌋ : ℝ) + 1 :=
      Int.lt_floor_add_one _
    have hval : sqrt3Floor b = -sqrt3Floor (-b) - 1 := by
      unfold sqrt3Floor
      rw [if_neg (not_le.mpr hb), if_pos (by linarith : (0 : ℚ) ≤ -b)]
      norm_num
    rw [hval, hpos, eq_comm, Int.floor_eq_iff]
    have hcast : ((-b : ℚ) : ℝ) = -(b : ℝ) := by push_cast; ring
    rw [hcast] at hfl hfu
    constructor
    · push_cast
      linarith
    · push_cast
      linarith

theorem floorq_eq (x : Q3) : floorq x = ⌊toReal x⌋ := by
  unfold floorq
  set c := ⌊x.a⌋ + sqrt3Floor x.b with hc
  have hlow : (c : ℝ) ≤ toReal x := by
    rw [hc]
    push_cast
    rw [sqrt3Floor_eq]
    unfold toReal
    have h1 : ((⌊x.a⌋ : ℤ) : ℝ) ≤ ((x.a : ℚ) : ℝ) := by
      exact_mod_cast Int.floor_le (α := ℚ) x.a
    have h2 : (⌊(x.b : ℝ) * Real.sqrt 3⌋ : ℝ) ≤ (x.b : ℝ) * Real.sqrt 3 := Int.floor_le _
    push_cast at h1
    linarith
  have hhigh : toReal x < (c : ℝ) + 2 := by
    rw [hc]
    push_cast
    rw [sqrt3Floor_eq]
    unfold toReal
    have h1 : ((x.a : ℚ) : ℝ) < ((⌊x.a⌋ : ℤ) : ℝ) + 1 := by
      exact_mod_cast Int.lt_floor_add_one (α := ℚ) x.a
    have h2 : (x.b : ℝ) * Real.sqrt 3 < (⌊(x.b : ℝ) * Real.sqrt 3⌋ : ℝ) + 1 :=
      Int.lt_floor_add_one _
    push_cast at h1
    linarith
  by_cases h : ((c + 1 : ℤ) : Q3) ≤ x
  · rw [if_pos h]
    have hle := le_iff.mp h
    rw [toReal_intCast] at hle
    rw [eq_comm, Int.floor_eq_iff]
    constructor
    · push_cast at hle ⊢
      linarith
    · push_cast
      linarith
  · rw [if_neg h]
    have hlt : ¬ (toReal ((c + 1 : ℤ) : Q3) ≤ toReal x) := fun hh => h (le_iff.mpr hh)
    rw [toReal_intCast] at hlt
    have hlt2 : toReal x < (c : ℝ) + 1 := by
      have hl := not_le.mp hlt
      push_cast at hl
      clear h hlt
      linarith
    rw [eq_comm, Int.floor_eq_iff]
    refine ⟨hlow, ?_⟩
    clear h hlt
    linarith

theorem ceilq_eq (x : Q3) : ceilq x = ⌈toReal x⌉ := by
  unfold ceilq
  rw [floorq_eq, toReal_neg, Int.floor_neg, neg_neg]

/-! Component lemmas: evaluate any concrete ℚ(√3) expression to a pair of
rational literals with `simp`/`norm_num`. -/

@[simp] theorem add_a (x y : Q3) : (x + y).a = x.a + y.a := rfl

@[simp] theorem add_b (x y : Q3) : (x + y).b = x.b + y.b := rfl

@[simp] theorem sub_a (x y : Q3) : (x - y).a = x.a - y.a := rfl

@[simp] theorem sub_b (x y : Q3) : (x - y).b = x.b - y.b := rfl

@[simp] theorem neg_a (x : Q3) : (-x).a = -x.a := rfl

@[simp] theorem neg_b (x : Q3) : (-x).b = -x.b := rfl

@[simp] theorem mul_a (x y : Q3) : (x * y).a = x.a * y.a + 3 * (x.b * y.b) := rfl

@[simp] theorem mul_b (x y : Q3) : (x * y).b = x.a * y.b + x.b * y.a := rfl

@[simp] theorem inv_a (x : Q3) : (x⁻¹).a = x.a / (x.a ^ 2 - 3 * x.b ^ 2) := rfl

@[simp] theorem inv_b (x : Q3) : (x⁻¹).b = -x.b / (x.a ^ 2 - 3 * x.b ^ 2) := rfl

@[simp] theorem div_def (x y : Q3) : x / y = x * y⁻¹ := rfl

@[simp] theorem sqrt3_a : sqrt3.a = 0 := rfl

@[simp] theorem sqrt3_b : sqrt3.b = 1 := rfl

@[simp] theorem ofNat_a (n : ℕ) : (no_index (OfNat.ofNat n) : Q3).a = (n : ℚ) := rfl

@[simp] theorem ofNat_b (n : ℕ) : (no_index (OfNat.ofNat n) : Q3).b = 0 := rfl

@[simp] theorem intCast_a (n : ℤ) : ((n : ℤ) : Q3).a = (n : ℚ) := rfl

@[simp] theorem intCast_b (n : ℤ) : ((n : ℤ) : Q3).b = 0 := rfl

@[simp] theorem ratCast_a (q : ℚ) : ((q : ℚ) : Q3).a = q := rfl

@[simp] theorem ratCast_b (q : ℚ) : ((q : ℚ) : Q3).b = 0 := rfl

/-- Definitional unfolding of `≤` for evaluation on concrete values. -/
theorem le_def (x y : Q3) : (x ≤ y) = (y - x).Nonneg := rfl

/-- Definitional unfolding of `<` for evaluation on concrete values. -/
theorem lt_def (x y : Q3) : (x < y) = ¬ (y ≤ x) := rfl

/-- Evaluate a floor from a bracketing certificate. -/
theorem floorq_of {x : Q3} {n : ℤ} (h1 : ((n : ℤ) : Q3) ≤ x)
    (h2 : x < ((n + 1 : ℤ) : Q3)) : floorq x = n := by
  rw [floorq_eq, Int.floor_eq_iff]
  have hl := le_iff.mp h1
  have hr := lt_iff.mp h2
  rw [toReal_intCast] at hl hr
  constructor
  · exact_mod_cast hl
  · push_cast at hr ⊢
    linarith

/-- Evaluate a ceiling from a bracketing certificate. -/
theorem ceilq_of {x : Q3} {n : ℤ} (h1 : ((n - 1 : ℤ) : Q3) < x)
    (h2 : x ≤ ((n : ℤ) : Q3)) : ceilq x = n := by
  rw [ceilq_eq, Int.ceil_eq_iff]
  have hl := lt_iff.mp h1
  have hr := le_iff.mp h2
  rw [toReal_intCast] at hl hr
  constructor
  · push_cast at hl ⊢
    linarith
  · exact_mod_cast hr

end Q3

/-! ## The embedded source (`src/display/types.ts`, `canvas.ts`, `hex.ts`) -/

/-- Incoming option set (`BaseDisplayOptions`/`TextDisplayOptions`/`HexOptions`
of `types.ts` and `hex.ts`, flattened): every field optional, as in the
source interfaces.  Grid sizes and font size are integers; spacing and
border idealised rationals; colors, fonts and the layout discriminant
strings. -/
structure DisplayOptionsIn where
  width : Option ℤ := none
  height : Option ℤ := none
  layout : Option String := none
  fg : Option String := none
  bg : Option String := none
  fontSize : Option ℤ := none
  spacing : Option ℚ := none
  border : Option ℚ := none
  fontFamily : Option String := none
  fontStyle : Option String := none
  transpose : Option Bool := none
deriving DecidableEq

/-- The frozen (fully defaulted, effective) hex option set
(`Required<HexOptions>` / `Frozen<HexOptions>` of the source). -/
structure FrozenHexOptions where
  width : ℤ
  height : ℤ
  layout : String
  fg : String
  bg : String
  fontSize : ℤ
  spacing : ℚ
  border : ℚ
  fontFamily : String
  fontStyle : String
  transpose : Bool
deriving DecidableEq

/-- One primitive operation issued to the 2D drawing surface. -/
inductive CanvasOp where
  | setFillStyle (c : String)
  | beginPath
  | moveTo (x y : Q3)
  | lineTo (x y : Q3)
  | fillPath
  | fillText (t : String) (x : Q3) (y : ℤ)
deriving DecidableEq

/-- The mutable state of the 2D drawing context (`this._ctx`): current font
string, text alignment, canvas element size, and the trace of drawing
operations issued so far. -/
structure CtxState where
  font : String
  textAlign : String
  textBaseline : String
  canvasWidth : ℤ
  canvasHeight : ℤ
  ops : List CanvasOp
deriving DecidableEq

/-- The state of one `Hex` backend instance: its effective options (none
before the first `setOptions`), the derived geometry fields `_spacingX`,
`_spacingY`, `_hexSize` (all `= 0` at construction, hex.ts lines 29–31),
the drawing context, and the environment's text-measurement function
`measure` (the width `this._ctx.measureText("W").width` as a function of
the current font string). -/
structure HexState where
  options : Option FrozenHexOptions
  _spacingX : Q3
  _spacingY : Q3
  _hexSize : Q3
  ctx : CtxState
  measure : String → ℚ

/-- The three-assignment in-place swap idiom the source uses for
`transpose` (`x += y; y = x - y; x -= y`, hex.ts lines 68–70, 80–82,
108–110). -/
def jsSwap (x y : Q3) : Q3 × Q3 :=
  let x1 := x + y
  let y1 := x1 - y
  (x1 - y1, y1)

/-- Modelled from the spec: the helper `mod` of `util.js` (a file not under
src/), the positive-remainder idiom `((x % n) + n) % n` over JavaScript's
truncated `%`; `mod(y, 2)` marks the odd rows of the doubled hex grid. -/
def jsMod (a n : ℤ) : ℤ := (Int.tmod a n + n).tmod n

/-- The font string `${style} ${fontSize}px ${fontFamily}` built by
`Canvas.setOptions` (canvas.ts lines 83–84), where `style` is
`fontStyle + " "` when `fontStyle` is truthy and `""` otherwise. -/
def fontString (fontStyle : String) (fontSize : ℤ) (fontFamily : String) : String :=
  (if fontStyle ≠ "" then fontStyle ++ " " else "") ++ " " ++ toString fontSize ++ "px " ++ fontFamily

namespace Hex

/-- The `DEFAULTS` getter chain seen from `Hex`: `Canvas` contributes
`fontSize 15, spacing 1, border 0, fontFamily "monospace", fontStyle ""`
(canvas.ts lines 67–76) and `Hex` adds `transpose false` (hex.ts lines
23–28).  The base-level values (class `Backend`, file not under src/) are
Modelled from the spec: defaults for `width`, `height`, `layout`, `fg`,
`bg` exist and are substituted for absent fields; their concrete values
are immaterial to every claim below. -/
def DEFAULTS : FrozenHexOptions where
  width := 80
  height := 25
  layout := "rect"
  fg := "#ccc"
  bg := "#000"
  fontSize := 15
  spacing := 1
  border := 0
  fontFamily := "monospace"
  fontStyle := ""
  transpose := false

/-- `Hex.defaultedOptions` (hex.ts lines 37–42): spread of `DEFAULTS`
overridden by the present fields of `options`. -/
def defaultedOptions (options : DisplayOptionsIn) : FrozenHexOptions where
  width := options.width.getD DEFAULTS.width
  height := options.height.getD DEFAULTS.height
  layout := options.layout.getD DEFAULTS.layout
  fg := options.fg.getD DEFAULTS.fg
  bg := options.bg.getD DEFAULTS.bg
  fontSize := options.fontSize.getD DEFAULTS.fontSize
  spacing := options.spacing.getD DEFAULTS.spacing
  border := options.border.getD DEFAULTS.border
  fontFamily := options.fontFamily.getD DEFAULTS.fontFamily
  fontStyle := options.fontStyle.getD DEFAULTS.fontStyle
  transpose := options.transpose.getD DEFAULTS.transpose

/-- `Hex.checkOptions` (hex.ts lines 33–35): `options.layout === "hex"`,
embedded state-passing to record that the call leaves the receiver
untouched. -/
def checkOptions (s : HexState) (options : DisplayOptionsIn) : Bool × HexState :=
  (options.layout == some "hex", s)

/-- `Hex._updateSize` (hex.ts lines 158–177): recompute the hex
circumradius from the font size and the measured glyph width, derive the
axis spacings, and resize the canvas element (axes swapped under
`transpose`). -/
def _updateSize (s : HexState) : HexState :=
  match s.options with
  | none => s
  | some opts =>
    let charWidth : ℤ := ⌈s.measure s.ctx.font⌉
    let hexSize : ℤ :=
      Q3.floorq ((opts.spacing : ℚ) * (((opts.fontSize : ℤ) : Q3) + ((charWidth : ℤ) : Q3) / Q3.sqrt3) / 2)
    let spacingX := ((hexSize : ℤ) : Q3) * Q3.sqrt3 / 2
    let spacingY := ((hexSize : ℤ) : Q3) * (3 / 2)
    let xdim : ℤ := Q3.ceilq (((opts.width + 1 : ℤ) : Q3) * spacingX)
    let ydim : ℤ := Q3.ceilq (((opts.height - 1 : ℤ) : Q3) * spacingY + 2 * ((hexSize : ℤ) : Q3))
    { s with
      _hexSize := ((hexSize : ℤ) : Q3)
      _spacingX := spacingX
      _spacingY := spacingY
      ctx :=
        { s.ctx with
          canvasWidth := if opts.transpose then ydim else xdim
          canvasHeight := if opts.transpose then xdim else ydim } }

/-- `Hex.computeSize` (hex.ts lines 66–76). -/
def computeSize (s : HexState) (availWidth availHeight : Q3) : ℤ × ℤ :=
  match s.options with
  | none => (0, 0)
  | some opts =>
    let p := if opts.transpose then jsSwap availWidth availHeight else (availWidth, availHeight)
    let width := Q3.floorq (p.1 / s._spacingX) - 1
    let height := Q3.floorq ((p.2 - 2 * s._hexSize) / s._spacingY + 1)
    (width, height)

/-- `Hex.computeFontSize` (hex.ts lines 78–103), state-passing because the
source temporarily sets `this._ctx.font` to `"100px " + fontFamily` to
measure a glyph and then restores the old font. -/
def computeFontSize (s : HexState) (availWidth availHeight : Q3) : ℤ × HexState :=
  match s.options with
  | none => (0, s)
  | some opts =>
    let p := if opts.transpose then jsSwap availWidth availHeight else (availWidth, availHeight)
    let hexSizeWidth := 2 * p.1 / (((opts.width + 1 : ℤ) : Q3) * Q3.sqrt3) - 1
    let hexSizeHeight := p.2 / (2 + (3 / 2) * (((opts.height : ℤ) : Q3) - 1))
    let hexSize := Q3.minq hexSizeWidth hexSizeHeight
    let oldFont := s.ctx.font
    let s1 := { s with ctx := { s.ctx with font := "100px " ++ opts.fontFamily } }
    let width : ℤ := ⌈s1.measure s1.ctx.font⌉
    let s2 := { s1 with ctx := { s1.ctx with font := oldFont } }
    let ratio : ℚ := (width : ℚ) / 100
    let hexSize2 : ℤ := Q3.floorq hexSize + 1
    let fontSize := 2 * ((hexSize2 : ℤ) : Q3) / ((opts.spacing : ℚ) * (1 + ((ratio : ℚ) : Q3) / Q3.sqrt3))
    (Q3.ceilq fontSize - 1, s2)

/-- `Hex._normalizedEventToPosition` (hex.ts lines 105–126). -/
def _normalizedEventToPosition (s : HexState) (x y : Q3) : ℤ × ℤ :=
  match s.options with
  | none => (0, 0)
  | some opts =>
    let p := if opts.transpose then jsSwap x y else (x, y)
    let nodeSize : ℤ := if opts.transpose then s.ctx.canvasWidth else s.ctx.canvasHeight
    let size := ((nodeSize : ℤ) : Q3) / ((opts.height : ℤ) : Q3)
    let row := Q3.floorq (p.2 / size)
    if jsMod row 2 ≠ 0 then
      (1 + 2 * Q3.floorq ((p.1 - s._spacingX) / (2 * s._spacingX)), row)
    else
      (2 * Q3.floorq (p.1 / (2 * s._spacingX)), row)

/-- The trace of surface operations `Hex._fill` issues (hex.ts lines
131–156): a six-vertex hexagon path around the centre, inset by the
border, vertex order axis-swapped under `transpose`. -/
def _fillOps (a b spacingX : Q3) (transpose : Bool) (cx cy : Q3) : List CanvasOp :=
  if transpose then
    [CanvasOp.beginPath,
     CanvasOp.moveTo (cx - a + b) cy,
     CanvasOp.lineTo (cx - a / 2 + b) (cy + spacingX - b),
     CanvasOp.lineTo (cx + a / 2 - b) (cy + spacingX - b),
     CanvasOp.lineTo (cx + a - b) cy,
     CanvasOp.lineTo (cx + a / 2 - b) (cy - spacingX + b),
     CanvasOp.lineTo (cx - a / 2 + b) (cy - spacingX + b),
     CanvasOp.lineTo (cx - a + b) cy,
     CanvasOp.fillPath]
  else
    [CanvasOp.beginPath,
     CanvasOp.moveTo cx (cy - a + b),
     CanvasOp.lineTo (cx + spacingX - b) (cy - a / 2 + b),
     CanvasOp.lineTo (cx + spacingX - b) (cy + a / 2 - b),
     CanvasOp.lineTo cx (cy + a - b),
     CanvasOp.lineTo (cx - spacingX + b) (cy + a / 2 - b),
     CanvasOp.lineTo (cx - spacingX + b) (cy - a / 2 + b),
     CanvasOp.lineTo cx (cy - a + b),
     CanvasOp.fillPath]

/-- `Hex._fill` (hex.ts lines 131–156), as the effect on the context. -/
def _fill (s : HexState) (cx cy : Q3) : HexState :=
  match s.options with
  | none => s
  | some opts =>
    { s with
      ctx :=
        { s.ctx with
          ops := s.ctx.ops ++ _fillOps s._hexSize ((opts.border : ℚ) : Q3) s._spacingX opts.transpose cx cy } }

end Hex

/-- The per-cell draw data `Hex.draw` destructures (`HexData`, the fields
`x, y, chars, fg, bg` of `DisplayData`, types.ts lines 69–84). -/
structure HexData where
  x : ℤ
  y : ℤ
  chars : List String
  fg : String
  bg : String
deriving DecidableEq

namespace Hex

/-- The pixel centre `Hex.draw` uses for cell `(x, y)` (hex.ts lines
46–50): `((x+1)·spacingX, y·spacingY + hexSize)`, the pair reversed under
`transpose`. -/
def cellCenter (spacingX spacingY hexSize : Q3) (transpose : Bool) (x y : ℤ) : Q3 × Q3 :=
  let px := (((x + 1 : ℤ) : Q3) * spacingX, ((y : ℤ) : Q3) * spacingY + hexSize)
  if transpose then (px.2, px.1) else px

/-- `Hex.draw` (hex.ts lines 43–64): compute the cell centre (axes swapped
under `transpose`), optionally clear the hex footprint with the cell
background, then draw each glyph at the centre with the cell foreground. -/
def draw (s : HexState) (data : HexData) (clearBefore : Bool) : HexState :=
  match s.options with
  | none => s
  | some opts =>
    let px := cellCenter s._spacingX s._spacingY s._hexSize opts.transpose data.x data.y
    let s1 :=
      if clearBefore then
        _fill { s with ctx := { s.ctx with ops := s.ctx.ops ++ [CanvasOp.setFillStyle data.bg] } } px.1 px.2
      else s
    if data.chars = [] then s1
    else
      let s2 := { s1 with ctx := { s1.ctx with ops := s1.ctx.ops ++ [CanvasOp.setFillStyle data.fg] } }
      { s2 with
        ctx :=
          { s2.ctx with
            ops := s2.ctx.ops ++ data.chars.map (fun c => CanvasOp.fillText c px.1 (Q3.ceilq px.2)) } }

end Hex

/-- Modelled from the spec: `Backend.setOptions` (class `Backend`, file not
under src/) — apply the variant's `defaultedOptions`, store the result as
the effective options, and report a repaint when there were no prior
options or any of the base structural/coloring fields (`width`, `height`,
`layout`, `fg`, `bg`) changed relative to the prior effective options. -/
def Backend.setOptions (s : HexState) (options : DisplayOptionsIn) : Bool × HexState :=
  let d := Hex.defaultedOptions options
  let needsRepaint :=
    match s.options with
    | none => true
    | some p =>
      (p.width != d.width) || (p.height != d.height) || (p.layout != d.layout) ||
        (p.fg != d.fg) || (p.bg != d.bg)
  (needsRepaint, { s with options := some d })

/-- `BaseCanvas.setOptions` (canvas.ts lines 22–30): delegate to the base,
then recompute the geometry when a repaint is needed. -/
def BaseCanvas.setOptions (s : HexState) (opts : DisplayOptionsIn) : Bool × HexState :=
  let r := Backend.setOptions s opts
  (r.1, if r.1 then Hex._updateSize r.2 else r.2)

/-- `Canvas.setOptions` (canvas.ts lines 77–94): the text layer reads the
prior effective `fontSize`, `fontFamily`, `spacing` before delegating,
adds them as repaint triggers, and on repaint installs the font string and
recomputes the geometry. -/
def Canvas.setOptions (s : HexState) (opts : DisplayOptionsIn) : Bool × HexState :=
  let prior := s.options
  let r := BaseCanvas.setOptions s opts
  let needsRepaint :=
    r.1 ||
      (match prior with
       | none => true
       | some p =>
         (opts.fontSize != some p.fontSize) || (opts.fontFamily != some p.fontFamily) ||
           (opts.spacing != some p.spacing))
  if needsRepaint then
    let s1 := r.2
    let o := s1.options.getD (Hex.defaultedOptions opts)
    let font := fontString o.fontStyle o.fontSize o.fontFamily
    let s2 := { s1 with ctx := { s1.ctx with font := font } }
    let s3 := Hex._updateSize s2
    let s4 := { s3 with ctx := { s3.ctx with font := font, textAlign := "center", textBaseline := "middle" } }
    (needsRepaint, s4)
  else (needsRepaint, r.2)

/-- The bounding client rectangle of the canvas element
(`canvas.getBoundingClientRect()`), an external input to
`eventToPosition`. -/
structure BoundingRect where
  left : Q3
  top : Q3
  width : Q3
  height : Q3

/-- `BaseCanvas.eventToPosition` (canvas.ts lines 40–52): translate to
surface space, scale by the canvas/rect ratio, answer `[-1, -1]` outside
the surface bounds and otherwise dispatch to the variant's
`_normalizedEventToPosition` (the parameter `normalized`). -/
def BaseCanvas.eventToPosition (s : HexState) (rect : BoundingRect)
    (normalized : Q3 → Q3 → ℤ × ℤ) (x y : Q3) : ℤ × ℤ :=
  let x1 := x - rect.left
  let y1 := y - rect.top
  let x2 := x1 * (((s.ctx.canvasWidth : ℤ) : Q3) / rect.width)
  let y2 := y1 * (((s.ctx.canvasHeight : ℤ) : Q3) / rect.height)
  if x2 < 0 ∨ y2 < 0 ∨ ((s.ctx.canvasWidth : ℤ) : Q3) ≤ x2 ∨ ((s.ctx.canvasHeight : ℤ) : Q3) ≤ y2 then
    (-1, -1)
  else normalized x2 y2

/-! ## Shared helper lemmas -/

@[ext] theorem Q3.ext {x y : Q3} (ha : x.a = y.a) (hb : x.b = y.b) : x = y := by
  cases x
  cases y
  simp_all

/-- The three-assignment idiom is an exact swap over exact arithmetic. -/
theorem jsSwap_eq (x y : Q3) : jsSwap x y = (y, x) := by
  show (x + y - (x + y - y), x + y - y) = (y, x)
  have h1 : x + y - (x + y - y) = y := by
    ext <;> simp
  have h2 : x + y - y = x := by
    ext <;> simp
  rw [h1, h2]

/-- `mod(a, 2)` agrees with the mathematical residue `a % 2`. -/
theorem jsMod_two (a : ℤ) : jsMod a 2 = a % 2 := by
  unfold jsMod
  rcases le_or_lt 0 a with ha | ha
  · rw [Int.tmod_eq_emod ha (by norm_num)]
    rcases Int.emod_two_eq a with h | h <;> rw [h] <;> decide
  · have hneg : Int.tmod a 2 = -(Int.tmod (-a) 2) := by
      rw [Int.tmod_def, Int.tmod_def, Int.neg_tdiv]
      ring
    rw [hneg,
      show Int.tmod (-a) 2 = (-a) % 2 from Int.tmod_eq_emod (by omega) (by norm_num)]
    rcases Int.emod_two_eq (-a) with h | h <;> rw [h]
    · have h2 : a % 2 = 0 := by omega
      rw [h2]
      decide
    · have h2 : a % 2 = 1 := by omega
      rw [h2]
      decide

/-- Evaluate an integer ceiling of a rational from a bracketing certificate. -/
theorem int_ceil_eval {q : ℚ} {n : ℤ} (h1 : (n : ℚ) - 1 < q) (h2 : q ≤ (n : ℚ)) :
    ⌈q⌉ = n :=
  Int.ceil_eq_iff.mpr ⟨by exact_mod_cast h1, by exact_mod_cast h2⟩

/-- A fresh drawing context (fields as a new canvas provides them; the
concrete values are immaterial). -/
def ctx0 : CtxState := ⟨"", "", "", 0, 0, []⟩

/-- A sample glyph-measurement environment: every font measures the glyph
"W" as 11 units wide. -/
def measure0 : String → ℚ := fun _ => 11

/-- A freshly constructed `Hex` backend: no effective options yet,
`_spacingX = _spacingY = _hexSize = 0` (hex.ts lines 29–31). -/
def hexInit : HexState := ⟨none, 0, 0, 0, ctx0, measure0⟩

/-! ## C7: checkOptions is a pure layout predicate -/

/-- C7: `Hex.checkOptions` is a pure predicate on the layout discriminant:
it returns true exactly when `options.layout` equals `"hex"`, and the call
leaves the backend's state unchanged. -/
theorem hex_checkOptions_pure (s : HexState) (o : DisplayOptionsIn) :
    ((Hex.checkOptions s o).1 = true ↔ o.layout = some "hex") ∧
      (Hex.checkOptions s o).2 = s := by
  constructor
  · show (o.layout == some "hex") = true ↔ _
    simp
  · rfl

/-! ## C6: eventToPosition out of bounds -/

/-- C6: whenever the translated and scaled event coordinates fall outside
the drawing surface's bounds, `eventToPosition` returns `[-1, -1]`, and
it does so for every variant-specific mapping — i.e. the mapping is not
invoked. -/
theorem eventToPosition_out_of_bounds (s : HexState) (rect : BoundingRect) (x y : Q3)
    (h : (x - rect.left) * (((s.ctx.canvasWidth : ℤ) : Q3) / rect.width) < 0 ∨
         (y - rect.top) * (((s.ctx.canvasHeight : ℤ) : Q3) / rect.height) < 0 ∨
         ((s.ctx.canvasWidth : ℤ) : Q3) ≤
           (x - rect.left) * (((s.ctx.canvasWidth : ℤ) : Q3) / rect.width) ∨
         ((s.ctx.canvasHeight : ℤ) : Q3) ≤
           (y - rect.top) * (((s.ctx.canvasHeight : ℤ) : Q3) / rect.height)) :
    ∀ normalized : Q3 → Q3 → ℤ × ℤ,
      BaseCanvas.eventToPosition s rect normalized x y = (-1, -1) := by
  intro f
  unfold BaseCanvas.eventToPosition
  exact if_pos h

/-- C6 witness: the point `(-5, 0)` against a `100 × 80` surface with an
identity bounding rectangle is out of bounds on the left, for two
different variant mappings. -/
theorem eventToPosition_out_of_bounds_witness :
    BaseCanvas.eventToPosition ⟨none, 0, 0, 0, ⟨"", "", "", 100, 80, []⟩, measure0⟩
        ⟨0, 0, 100, 80⟩ (fun _ _ => (3, 4)) (-5) 0 = (-1, -1) ∧
    BaseCanvas.eventToPosition ⟨none, 0, 0, 0, ⟨"", "", "", 100, 80, []⟩, measure0⟩
        ⟨0, 0, 100, 80⟩ (fun _ _ => (7, 8)) (-5) 0 = (-1, -1) := by
  constructor <;>
    exact eventToPosition_out_of_bounds _ _ _ _
      (Or.inl (by norm_num [Q3.lt_def, Q3.le_def, Q3.Nonneg])) _

/-! ## C3: transpose behaviour of computeSize -/

/-- C3 (amended): with the derived geometry fixed, `computeSize(W, H)`
under `transpose = true` equals `computeSize(H, W)` under
`transpose = false` componentwise — the code swaps the available extents
on the way in and does not swap the returned `[cols, rows]` pair. -/
theorem hex_computeSize_transpose_eq (s : HexState) (o : FrozenHexOptions) (W H : Q3)
    (hs : s.options = some o) (ht : o.transpose = true) :
    Hex.computeSize s W H =
      Hex.computeSize { s with options := some { o with transpose := false } } H W := by
  unfold Hex.computeSize
  rw [hs]
  simp only [ht, jsSwap_eq, Bool.false_eq_true, if_true, if_false]

/-- C3 counterexample: a geometry with `hexSize = 2`, `spacingX = √3`,
`spacingY = 3`: the transposed `computeSize(30, 12)` is `(5, 9)`, equal —
not swapped — to the non-transposed `computeSize(12, 30)`, whose swap is
`(9, 5)`. -/
theorem hex_computeSize_transpose_not_swapped :
    ¬ (Hex.computeSize ⟨some ⟨10, 10, "hex", "#ccc", "#000", 15, 1, 0, "monospace", "", true⟩,
          Q3.sqrt3, 3, 2, ctx0, measure0⟩ 30 12 =
        Prod.swap (Hex.computeSize ⟨some ⟨10, 10, "hex", "#ccc", "#000", 15, 1, 0, "monospace", "", false⟩,
          Q3.sqrt3, 3, 2, ctx0, measure0⟩ 12 30)) := by
  have e1 : Q3.floorq ((30 + 12 - (30 + 12 - 12) : Q3) / Q3.sqrt3) = 6 := by
    rw [show ((30 + 12 - (30 + 12 - 12) : Q3) / Q3.sqrt3) = ⟨0, 4⟩ from by
      ext <;> norm_num]
    exact Q3.floorq_of (by norm_num [Q3.le_def, Q3.Nonneg])
      (by norm_num [Q3.lt_def, Q3.le_def, Q3.Nonneg])
  have e2 : Q3.floorq ((30 + 12 - 12 - 2 * 2 : Q3) / 3 + 1) = 9 := by
    rw [show ((30 + 12 - 12 - 2 * 2 : Q3) / 3 + 1) = ⟨29/3, 0⟩ from by
      ext <;> norm_num]
    exact Q3.floorq_of (by norm_num [Q3.le_def, Q3.Nonneg])
      (by norm_num [Q3.lt_def, Q3.le_def, Q3.Nonneg])
  have e3 : Q3.floorq ((12 : Q3) / Q3.sqrt3) = 6 := by
    rw [show ((12 : Q3) / Q3.sqrt3) = ⟨0, 4⟩ from by
      ext <;> norm_num]
    exact Q3.floorq_of (by norm_num [Q3.le_def, Q3.Nonneg])
      (by norm_num [Q3.lt_def, Q3.le_def, Q3.Nonneg])
  have e4 : Q3.floorq ((30 - 2 * 2 : Q3) / 3 + 1) = 9 := by
    rw [show ((30 - 2 * 2 : Q3) / 3 + 1) = ⟨29/3, 0⟩ from by
      ext <;> norm_num]
    exact Q3.floorq_of (by norm_num [Q3.le_def, Q3.Nonneg])
      (by norm_num [Q3.lt_def, Q3.le_def, Q3.Nonneg])
  simp only [Hex.computeSize, jsSwap, Bool.false_eq_true, if_true, if_false]
  rw [e1, e2, e3, e4]
  decide

/-- C3 witness: the amended equality at the counterexample's geometry and
box. -/
theorem hex_computeSize_transpose_eq_witness :
    Hex.computeSize ⟨some ⟨10, 10, "hex", "#ccc", "#000", 15, 1, 0, "monospace", "", true⟩,
        Q3.sqrt3, 3, 2, ctx0, measure0⟩ 30 12 =
      Hex.computeSize ⟨some ⟨10, 10, "hex", "#ccc", "#000", 15, 1, 0, "monospace", "", false⟩,
        Q3.sqrt3, 3, 2, ctx0, measure0⟩ 12 30 :=
  hex_computeSize_transpose_eq _ _ 30 12 rfl rfl

/-! ## C10: parity invariant of the hex coordinate mapping -/

/-- Parity facts for a column produced by the odd-row branch. -/
theorem parity_package_odd (K r : ℤ) (hodd : r % 2 ≠ 0) :
    ((1 + 2 * K) % 2 = r % 2) ∧ (r % 2 = 1 → ∃ k : ℤ, 1 + 2 * K = 1 + 2 * k) ∧
      (r % 2 = 0 → ∃ k : ℤ, 1 + 2 * K = 2 * k) :=
  ⟨by omega, fun _ => ⟨K, rfl⟩, fun h => absurd h hodd⟩

/-- Parity facts for a column produced by the even-row branch. -/
theorem parity_package_even (K r : ℤ) (heven : r % 2 = 0) :
    ((2 * K) % 2 = r % 2) ∧ (r % 2 = 1 → ∃ k : ℤ, 2 * K = 1 + 2 * k) ∧
      (r % 2 = 0 → ∃ k : ℤ, 2 * K = 2 * k) :=
  ⟨by omega, fun h => absurd h (by omega), fun _ => ⟨K, rfl⟩⟩

/-- C10: for every in-bounds input, the cell `_normalizedEventToPosition`
returns lies on the doubled-hex-grid lattice: the column has the parity of
the row, odd rows yield columns of the form `1 + 2k`, even rows columns of
the form `2k`. -/
theorem hex_normalizedEventToPosition_parity (s : HexState) (o : FrozenHexOptions) (x y : Q3)
    (hs : s.options = some o) (hx0 : 0 ≤ x) (hy0 : 0 ≤ y)
    (hx1 : x < ((s.ctx.canvasWidth : ℤ) : Q3)) (hy1 : y < ((s.ctx.canvasHeight : ℤ) : Q3)) :
    ((Hex._normalizedEventToPosition s x y).1 % 2 = (Hex._normalizedEventToPosition s x y).2 % 2) ∧
    ((Hex._normalizedEventToPosition s x y).2 % 2 = 1 →
      ∃ k : ℤ, (Hex._normalizedEventToPosition s x y).1 = 1 + 2 * k) ∧
    ((Hex._normalizedEventToPosition s x y).2 % 2 = 0 →
      ∃ k : ℤ, (Hex._normalizedEventToPosition s x y).1 = 2 * k) := by
  unfold Hex._normalizedEventToPosition
  rw [hs]
  simp only []
  split_ifs with h1 h2 h2
  · exact parity_package_odd _ _ (by rw [jsMod_two] at h2; exact h2)
  · exact parity_package_even _ _ (by rw [jsMod_two] at h2; omega)
  · exact parity_package_odd _ _ (by rw [jsMod_two] at h2; exact h2)
  · exact parity_package_even _ _ (by rw [jsMod_two] at h2; omega)

/-- C10 witness: at a concrete configured state and the in-bounds point
`(1, 2)`, the returned column and row have equal parity. -/
theorem hex_normalizedEventToPosition_parity_witness :
    (Hex._normalizedEventToPosition ⟨some ⟨10, 2, "hex", "#ccc", "#000", 15, 1, 0, "monospace", "", false⟩,
        Q3.sqrt3, 3, 2, ⟨"", "", "", 40, 35, []⟩, measure0⟩ 1 2).1 % 2 =
      (Hex._normalizedEventToPosition ⟨some ⟨10, 2, "hex", "#ccc", "#000", 15, 1, 0, "monospace", "", false⟩,
        Q3.sqrt3, 3, 2, ⟨"", "", "", 40, 35, []⟩, measure0⟩ 1 2).2 % 2 :=
  (hex_normalizedEventToPosition_parity _ _ 1 2 rfl
    (by norm_num [Q3.le_def, Q3.Nonneg])
    (by norm_num [Q3.le_def, Q3.Nonneg])
    (by norm_num [Q3.lt_def, Q3.le_def, Q3.Nonneg])
    (by norm_num [Q3.lt_def, Q3.le_def, Q3.Nonneg])).1

/-! ## C8: draw on an empty glyph sequence, and glyph order -/

/-- C8: `Hex.draw` with an empty normalized glyph sequence is a defined
no-op beyond the optional clear: with `clearBefore = false` the state is
untouched; with `clearBefore = true` the only surface operations are the
background fill style and the hex-footprint fill.  With a non-empty glyph
sequence, the glyphs are drawn in sequence order, each at the cell centre
with the single cell foreground. -/
theorem hex_draw_spec (s : HexState) (o : FrozenHexOptions) (d : HexData)
    (hs : s.options = some o) :
    (d.chars = [] → Hex.draw s d false = s) ∧
    (d.chars = [] → Hex.draw s d true =
      { s with ctx := { s.ctx with ops := s.ctx.ops ++
          ([CanvasOp.setFillStyle d.bg] ++
            Hex._fillOps s._hexSize ((o.border : ℚ) : Q3) s._spacingX o.transpose
              (Hex.cellCenter s._spacingX s._spacingY s._hexSize o.transpose d.x d.y).1
              (Hex.cellCenter s._spacingX s._spacingY s._hexSize o.transpose d.x d.y).2) } }) ∧
    (∀ clearBefore : Bool, d.chars ≠ [] → Hex.draw s d clearBefore =
      { s with ctx := { s.ctx with ops := s.ctx.ops ++
          (if clearBefore then
            [CanvasOp.setFillStyle d.bg] ++
              Hex._fillOps s._hexSize ((o.border : ℚ) : Q3) s._spacingX o.transpose
                (Hex.cellCenter s._spacingX s._spacingY s._hexSize o.transpose d.x d.y).1
                (Hex.cellCenter s._spacingX s._spacingY s._hexSize o.transpose d.x d.y).2
          else []) ++
          ([CanvasOp.setFillStyle d.fg] ++
            d.chars.map (fun c => CanvasOp.fillText c
              (Hex.cellCenter s._spacingX s._spacingY s._hexSize o.transpose d.x d.y).1
              (Q3.ceilq (Hex.cellCenter s._spacingX s._spacingY s._hexSize o.transpose d.x d.y).2))) } }) := by
  rcases s with ⟨so, sx, sy, hz, ⟨cf, cta, ctb, cw, chh, cops⟩, sm⟩
  cases hs
  refine ⟨?_, ?_, ?_⟩
  · intro hempty
    simp [Hex.draw, hempty]
  · intro hempty
    simp [Hex.draw, Hex._fill, hempty]
  · intro clearBefore hne
    cases clearBefore
    · simp [Hex.draw, Hex._fill, hne]
    · simp [Hex.draw, Hex._fill, hne]

/-- C8 witness: at a concrete configured backend, drawing an empty glyph
list with `clearBefore = false` leaves the state exactly unchanged. -/
theorem hex_draw_spec_witness :
    Hex.draw ⟨some ⟨10, 10, "hex", "#ccc", "#000", 15, 1, 0, "monospace", "", false⟩,
        Q3.sqrt3, 3, 2, ctx0, measure0⟩ ⟨0, 0, [], "#fff", "#000"⟩ false =
      ⟨some ⟨10, 10, "hex", "#ccc", "#000", 15, 1, 0, "monospace", "", false⟩,
        Q3.sqrt3, 3, 2, ctx0, measure0⟩ :=
  (hex_draw_spec _ _ _ rfl).1 rfl

/-! ## C9: computeSize and computeFontSize are pure observers -/

/-- C9: `computeFontSize` restores every state component (in particular
the context font it changed temporarily to measure a glyph), and the
results of both geometry solvers are determined solely by the effective
options and the measured glyph metrics: two backends agreeing on options,
measurement environment and current font produce identical
`computeFontSize` values and identical `computeSize` results over the
recomputed geometry.  (`computeSize` itself takes no state and returns no
state in this embedding, mirroring that the source method reads but never
writes the backend.) -/
theorem hex_compute_pure (s t : HexState) (availWidth availHeight : Q3)
    (hOpt : s.options = t.options) (hM : s.measure = t.measure)
    (hF : s.ctx.font = t.ctx.font) :
    (Hex.computeFontSize s availWidth availHeight).2 = s ∧
    (Hex.computeFontSize s availWidth availHeight).1 =
      (Hex.computeFontSize t availWidth availHeight).1 ∧
    Hex.computeSize (Hex._updateSize s) availWidth availHeight =
      Hex.computeSize (Hex._updateSize t) availWidth availHeight := by
  rcases s with ⟨so, sx, sy, sh, ⟨sf, sta, stb, scw, sch, sops⟩, sm⟩
  rcases t with ⟨topt, tx, ty, th, ⟨tf, tta, ttb, tcw, tch, tops⟩, tm⟩
  obtain rfl : so = topt := hOpt
  obtain rfl : sm = tm := hM
  obtain rfl : sf = tf := hF
  refine ⟨?_, ?_, ?_⟩
  · cases so <;> rfl
  · cases so <;> rfl
  · cases so <;> rfl

/-- C9 witness: two concrete backends differing in geometry fields, trace
and alignment but agreeing on options, measurement and font: the
`computeFontSize` call returns its receiver unchanged and both agree on
the computed font size. -/
theorem hex_compute_pure_witness :
    (Hex.computeFontSize ⟨some ⟨10, 10, "hex", "#ccc", "#000", 15, 1, 0, "monospace", "", false⟩,
        Q3.sqrt3, 3, 2, ⟨"f", "center", "middle", 40, 35, []⟩, measure0⟩ 200 200).2 =
      ⟨some ⟨10, 10, "hex", "#ccc", "#000", 15, 1, 0, "monospace", "", false⟩,
        Q3.sqrt3, 3, 2, ⟨"f", "center", "middle", 40, 35, []⟩, measure0⟩ ∧
    (Hex.computeFontSize ⟨some ⟨10, 10, "hex", "#ccc", "#000", 15, 1, 0, "monospace", "", false⟩,
        Q3.sqrt3, 3, 2, ⟨"f", "center", "middle", 40, 35, []⟩, measure0⟩ 200 200).1 =
      (Hex.computeFontSize ⟨some ⟨10, 10, "hex", "#ccc", "#000", 15, 1, 0, "monospace", "", false⟩,
        7, 8, 9, ⟨"f", "", "", 0, 0, [CanvasOp.beginPath]⟩, measure0⟩ 200 200).1 :=
  ⟨(hex_compute_pure _ _ 200 200 rfl rfl rfl).1,
   (hex_compute_pure _ _ 200 200 rfl rfl rfl).2.1⟩

/-! ## C4: computeSize closed form over the derived geometry -/

/-- C4: after `_updateSize`, the derived geometry satisfies
`hexSize = ⌊spacing·(fontSize + charWidth/√3)/2⌋` (the circumradius from
font size and measured glyph width), `spacingX = hexSize·√3/2`,
`spacingY = hexSize·1.5`, and `computeSize` without transpose returns
exactly `[⌊availWidth / spacingX⌋ − 1, ⌊(availHeight − 2·hexSize) / spacingY + 1⌋]`. -/
theorem hex_computeSize_formula (s : HexState) (o : FrozenHexOptions)
    (availWidth availHeight : Q3) (hs : s.options = some o) (ht : o.transpose = false) :
    let charWidth : ℤ := ⌈s.measure s.ctx.font⌉
    let h : ℤ :=
      Q3.floorq ((o.spacing : ℚ) * (((o.fontSize : ℤ) : Q3) + ((charWidth : ℤ) : Q3) / Q3.sqrt3) / 2)
    (Hex._updateSize s)._hexSize = ((h : ℤ) : Q3) ∧
    (Hex._updateSize s)._spacingX = ((h : ℤ) : Q3) * Q3.sqrt3 / 2 ∧
    (Hex._updateSize s)._spacingY = ((h : ℤ) : Q3) * (3 / 2) ∧
    Hex.computeSize (Hex._updateSize s) availWidth availHeight =
      (Q3.floorq (availWidth / (((h : ℤ) : Q3) * Q3.sqrt3 / 2)) - 1,
       Q3.floorq ((availHeight - 2 * ((h : ℤ) : Q3)) / (((h : ℤ) : Q3) * (3 / 2)) + 1)) := by
  rcases s with ⟨so, sx, sy, sh, ⟨sf, sta, stb, scw, sch, sops⟩, sm⟩
  cases hs
  refine ⟨rfl, rfl, rfl, ?_⟩
  simp only [Hex.computeSize, Hex._updateSize, ht, Bool.false_eq_true, if_false]

/-- C4 witness: a concrete configured backend (`fontSize 15`, glyph width
measured `11`) yields circumradius `10` and `computeSize(67, 73) = (6, 4)`. -/
theorem hex_computeSize_formula_witness :
    Hex.computeSize (Hex._updateSize ⟨some ⟨10, 10, "hex", "#ccc", "#000", 15, 1, 0, "monospace", "", false⟩,
        0, 0, 0, ctx0, measure0⟩) 67 73 = (6, 4) := by
  rw [(hex_computeSize_formula ⟨some ⟨10, 10, "hex", "#ccc", "#000", 15, 1, 0, "monospace", "", false⟩,
        0, 0, 0, ctx0, measure0⟩ ⟨10, 10, "hex", "#ccc", "#000", 15, 1, 0, "monospace", "", false⟩
        67 73 rfl rfl).2.2.2]
  have hrad : Q3.floorq ((1 : ℚ) * (((15 : ℤ) : Q3) + (((⌈measure0 ctx0.font⌉ : ℤ) : ℤ) : Q3) / Q3.sqrt3) / 2) = 10 := by
    rw [show ((1 : ℚ) * (((15 : ℤ) : Q3) + (((⌈measure0 ctx0.font⌉ : ℤ) : ℤ) : Q3) / Q3.sqrt3) / 2 : Q3) =
        ⟨15/2, 11/6⟩ from by
      rw [show (⌈measure0 ctx0.font⌉ : ℤ) = 11 from by norm_num [measure0, ctx0]]
      ext <;> norm_num]
    exact Q3.floorq_of (by norm_num [Q3.le_def, Q3.Nonneg])
      (by norm_num [Q3.lt_def, Q3.le_def, Q3.Nonneg])
  rw [hrad]
  have e1 : Q3.floorq ((67 : Q3) / (((10 : ℤ) : Q3) * Q3.sqrt3 / 2)) = 7 := by
    rw [show ((67 : Q3) / (((10 : ℤ) : Q3) * Q3.sqrt3 / 2)) = ⟨0, 67/15⟩ from by
      ext <;> norm_num]
    exact Q3.floorq_of (by norm_num [Q3.le_def, Q3.Nonneg])
      (by norm_num [Q3.lt_def, Q3.le_def, Q3.Nonneg])
  have e2 : Q3.floorq (((73 : Q3) - 2 * ((10 : ℤ) : Q3)) / (((10 : ℤ) : Q3) * (3 / 2)) + 1) = 4 := by
    rw [show (((73 : Q3) - 2 * ((10 : ℤ) : Q3)) / (((10 : ℤ) : Q3) * (3 / 2)) + 1) = ⟨68/15, 0⟩ from by
      ext <;> norm_num]
    exact Q3.floorq_of (by norm_num [Q3.le_def, Q3.Nonneg])
      (by norm_num [Q3.lt_def, Q3.le_def, Q3.Nonneg])
  rw [e1, e2]
  decide

/-! ## C1: setOptions repaint signalling -/

/-- The repaint flag `Canvas.setOptions` returns, in closed form: the
base triggers disjoined with the text-variant triggers read from the
prior effective options. -/
theorem canvas_setOptions_fst (s : HexState) (o : DisplayOptionsIn) :
    (Canvas.setOptions s o).1 =
      ((Backend.setOptions s o).1 ||
        (match s.options with
         | none => true
         | some p =>
           (o.fontSize != some p.fontSize) || (o.fontFamily != some p.fontFamily) ||
             (o.spacing != some p.spacing))) := by
  unfold Canvas.setOptions BaseCanvas.setOptions
  rcases hso : s.options with _ | p <;> simp only [hso] <;> split <;> rfl

/-- The scenario option set
`{layout:"hex", width:10, height:10, fontSize:15, fontFamily:"monospace",
spacing:1, border:0, transpose:false}`. -/
def scenOpts : DisplayOptionsIn where
  width := some 10
  height := some 10
  layout := some "hex"
  fontSize := some 15
  spacing := some 1
  border := some 0
  fontFamily := some "monospace"
  transpose := some false

/-- C1: for a text-variant backend, `setOptions` reports a repaint
whenever `fontSize`, `fontFamily` or `spacing` differs from the prior
effective options; and in the scenario, the first call on a fresh backend
returns `true` while an immediately repeated identical call returns
`false`. -/
theorem canvas_setOptions_repaint (s : HexState) (p : FrozenHexOptions) (o : DisplayOptionsIn)
    (h : s.options = some p)
    (hdiff : o.fontSize ≠ some p.fontSize ∨ o.fontFamily ≠ some p.fontFamily ∨
      o.spacing ≠ some p.spacing) :
    (Canvas.setOptions s o).1 = true ∧
    (Canvas.setOptions hexInit scenOpts).1 = true ∧
    (Canvas.setOptions (Canvas.setOptions hexInit scenOpts).2 scenOpts).1 = false := by
  refine ⟨?_, ?_, ?_⟩
  · rw [canvas_setOptions_fst, h]
    rcases hdiff with hd | hd | hd <;> simp [hd]
  · rfl
  · rfl

/-- C1 witness: a backend whose effective font size is 15 receives options
asking for font size 16: repaint reported; plus the two scenario calls. -/
theorem canvas_setOptions_repaint_witness :
    (⟨some ⟨10, 10, "hex", "#ccc", "#000", 15, 1, 0, "monospace", "", false⟩,
        0, 0, 0, ctx0, measure0⟩ : HexState).options =
      some ⟨10, 10, "hex", "#ccc", "#000", 15, 1, 0, "monospace", "", false⟩ ∧
    (Canvas.setOptions ⟨some ⟨10, 10, "hex", "#ccc", "#000", 15, 1, 0, "monospace", "", false⟩,
        0, 0, 0, ctx0, measure0⟩ { scenOpts with fontSize := some 16 }).1 = true ∧
    (Canvas.setOptions hexInit scenOpts).1 = true ∧
    (Canvas.setOptions (Canvas.setOptions hexInit scenOpts).2 scenOpts).1 = false := by
  refine ⟨rfl, ?_⟩
  have := canvas_setOptions_repaint
    ⟨some ⟨10, 10, "hex", "#ccc", "#000", 15, 1, 0, "monospace", "", false⟩,
        0, 0, 0, ctx0, measure0⟩
    ⟨10, 10, "hex", "#ccc", "#000", 15, 1, 0, "monospace", "", false⟩
    { scenOpts with fontSize := some 16 } rfl (Or.inl (by decide))
  exact ⟨this.1, this.2.1, this.2.2⟩

/-! ## C5: hex coordinate round-trip -/

/-- Bounds on the vertical canvas extent `⌈(R−1)·spacingY + 2·hexSize⌉`
set by `_updateSize`. -/
theorem extent_bounds (hz R E : ℤ)
    (hE : E = Q3.ceilq (((R - 1 : ℤ) : Q3) * (((hz : ℤ) : Q3) * (3 / 2)) + 2 * ((hz : ℤ) : Q3))) :
    3 * R * hz + hz ≤ 2 * E ∧ 2 * E ≤ 3 * R * hz + hz + 1 := by
  have hval : Q3.toReal (((R - 1 : ℤ) : Q3) * (((hz : ℤ) : Q3) * (3 / 2)) + 2 * ((hz : ℤ) : Q3)) =
      (3 * (R : ℝ) * (hz : ℝ) + (hz : ℝ)) / 2 := by
    simp only [Q3.toReal_add, Q3.toReal_mul, Q3.toReal_intCast, Q3.toReal_div, Q3.toReal_ofNat]
    push_cast
    ring
  rw [hE, Q3.ceilq_eq, hval]
  have h1 := Int.le_ceil ((3 * (R : ℝ) * (hz : ℝ) + (hz : ℝ)) / 2)
  have h2 := Int.ceil_lt_add_one ((3 * (R : ℝ) * (hz : ℝ) + (hz : ℝ)) / 2)
  set C := ⌈(3 * (R : ℝ) * (hz : ℝ) + (hz : ℝ)) / 2⌉ with hC
  constructor
  · have : (3 * (R : ℝ) * (hz : ℝ) + (hz : ℝ)) ≤ 2 * (C : ℝ) := by linarith
    exact_mod_cast this
  · have : 2 * (C : ℝ) < 3 * (R : ℝ) * (hz : ℝ) + (hz : ℝ) + 2 := by linarith
    have h3 : 2 * C < 3 * R * hz + hz + 2 := by exact_mod_cast this
    omega

/-- The row computation of the coordinate mapping recovers the row from
the cell centre's vertical pixel position. -/
theorem row_floor_eval (hz R r E : ℤ) (hz1 : 1 ≤ hz) (hr0 : 0 ≤ r) (hrR : r < R)
    (hEa : 3 * R * hz + hz ≤ 2 * E) (hEb : 2 * E ≤ 3 * R * hz + hz + 1) :
    Q3.floorq ((((r : ℤ) : Q3) * (((hz : ℤ) : Q3) * (3 / 2)) + ((hz : ℤ) : Q3)) /
      (((E : ℤ) : Q3) / ((R : ℤ) : Q3))) = r := by
  rw [Q3.floorq_eq]
  simp only [Q3.toReal_div, Q3.toReal_add, Q3.toReal_mul, Q3.toReal_intCast, Q3.toReal_ofNat]
  have hRr : (0 : ℝ) < (R : ℝ) := by
    have : (0 : ℤ) < R := by omega
    exact_mod_cast this
  have hEr : (0 : ℝ) < (E : ℝ) := by
    have : (0 : ℤ) < E := by nlinarith
    exact_mod_cast this
  have hzr : (1 : ℝ) ≤ (hz : ℝ) := by exact_mod_cast hz1
  have hrr : (0 : ℝ) ≤ (r : ℝ) := by exact_mod_cast hr0
  have hrRr : (r : ℝ) + 1 ≤ (R : ℝ) := by exact_mod_cast hrR
  have hEar : 3 * (R : ℝ) * (hz : ℝ) + (hz : ℝ) ≤ 2 * (E : ℝ) := by exact_mod_cast hEa
  have hEbr : 2 * (E : ℝ) ≤ 3 * (R : ℝ) * (hz : ℝ) + (hz : ℝ) + 1 := by exact_mod_cast hEb
  rw [div_div_eq_mul_div, Int.floor_eq_iff]
  constructor
  · rw [le_div_iff₀ hEr]
    nlinarith
  · rw [div_lt_iff₀ hEr]
    push_cast
    nlinarith

/-- The even-row column division recovers `k` from the centre of column
`c = 2k`. -/
theorem col_floor_even (hz c k : ℤ) (hz1 : 1 ≤ hz) (hck : c = 2 * k) :
    Q3.floorq ((((c + 1 : ℤ) : Q3) * (((hz : ℤ) : Q3) * Q3.sqrt3 / 2)) /
      (2 * (((hz : ℤ) : Q3) * Q3.sqrt3 / 2))) = k := by
  rw [Q3.floorq_eq]
  simp only [Q3.toReal_div, Q3.toReal_add, Q3.toReal_mul, Q3.toReal_intCast, Q3.toReal_ofNat,
    Q3.toReal_sqrt3]
  push_cast
  have hx : (0 : ℝ) < (hz : ℝ) * Real.sqrt 3 / 2 := by
    have hzr : (1 : ℝ) ≤ (hz : ℝ) := by exact_mod_cast hz1
    have := Q3.sqrt3_pos
    positivity
  rw [show ((c : ℝ) + 1) * ((hz : ℝ) * Real.sqrt 3 / 2) / (2 * ((hz : ℝ) * Real.sqrt 3 / 2)) =
      ((c : ℝ) + 1) / 2 from by
    field_simp
    ring]
  subst hck
  rw [Int.floor_eq_iff]
  constructor
  · push_cast
    linarith
  · push_cast
    linarith

/-- The odd-row column division (after the half-spacing offset) recovers
`k` from the centre of column `c = 2k + 1`. -/
theorem col_floor_odd (hz c k : ℤ) (hz1 : 1 ≤ hz) (hck : c = 2 * k + 1) :
    Q3.floorq (((((c + 1 : ℤ) : Q3) * (((hz : ℤ) : Q3) * Q3.sqrt3 / 2)) -
        (((hz : ℤ) : Q3) * Q3.sqrt3 / 2)) /
      (2 * (((hz : ℤ) : Q3) * Q3.sqrt3 / 2))) = k := by
  rw [Q3.floorq_eq]
  simp only [Q3.toReal_div, Q3.toReal_add, Q3.toReal_sub, Q3.toReal_mul, Q3.toReal_intCast,
    Q3.toReal_ofNat, Q3.toReal_sqrt3]
  push_cast
  have hx : (0 : ℝ) < (hz : ℝ) * Real.sqrt 3 / 2 := by
    have hzr : (1 : ℝ) ≤ (hz : ℝ) := by exact_mod_cast hz1
    have := Q3.sqrt3_pos
    positivity
  rw [show (((c : ℝ) + 1) * ((hz : ℝ) * Real.sqrt 3 / 2) - (hz : ℝ) * Real.sqrt 3 / 2) /
        (2 * ((hz : ℝ) * Real.sqrt 3 / 2)) = (c : ℝ) / 2 from by
    field_simp
    ring]
  subst hck
  rw [Int.floor_eq_iff]
  constructor
  · push_cast
    linarith
  · push_cast
    linarith

/-- C5: for every lattice cell `(c, r)` of the configured grid (matching
parity, `0 ≤ c`, `0 ≤ r < height`, positive integer circumradius), feeding
the pixel centre `Hex.draw` uses for that cell — axes swapped under
`transpose` — into `_normalizedEventToPosition` returns exactly `(c, r)`;
the geometry is the one `_updateSize` maintains (`spacingX = h·√3/2`,
`spacingY = 1.5·h`, canvas extent `⌈(height−1)·spacingY + 2·h⌉` on the
row axis). -/
theorem hex_coordinate_roundtrip (s : HexState) (o : FrozenHexOptions) (hz c r R : ℤ)
    (hs : s.options = some o)
    (hheight : o.height = R)
    (hhex : s._hexSize = ((hz : ℤ) : Q3))
    (hsX : s._spacingX = ((hz : ℤ) : Q3) * Q3.sqrt3 / 2)
    (hsY : s._spacingY = ((hz : ℤ) : Q3) * (3 / 2))
    (hnode : (if o.transpose then s.ctx.canvasWidth else s.ctx.canvasHeight) =
      Q3.ceilq (((R - 1 : ℤ) : Q3) * (((hz : ℤ) : Q3) * (3 / 2)) + 2 * ((hz : ℤ) : Q3)))
    (hz1 : 1 ≤ hz) (hc0 : 0 ≤ c) (hr0 : 0 ≤ r) (hrR : r < R) (hpar : c % 2 = r % 2) :
    Hex._normalizedEventToPosition s
      (Hex.cellCenter s._spacingX s._spacingY s._hexSize o.transpose c r).1
      (Hex.cellCenter s._spacingX s._spacingY s._hexSize o.transpose c r).2 = (c, r) := by
  rcases s with ⟨so, sx, sy, sh, ⟨sf, sta, stb, scw, sch, sops⟩, sm⟩
  simp only at hs hhex hsX hsY hnode
  cases hs
  cases hhex
  cases hsX
  cases hsY
  simp only [Hex._normalizedEventToPosition, Hex.cellCenter, hheight]
  cases htr : o.transpose
  all_goals rw [htr] at hnode
  all_goals simp only [htr, Bool.false_eq_true, if_false, if_true, jsSwap_eq]
  · simp only [if_false, Bool.false_eq_true] at hnode
    obtain ⟨hEa, hEb⟩ := extent_bounds hz R sch hnode
    rw [row_floor_eval hz R r sch hz1 hr0 hrR hEa hEb]
    rcases Int.emod_two_eq r with hre | hro
    · obtain ⟨k, hk⟩ : ∃ k, c = 2 * k := ⟨c / 2, by omega⟩
      rw [show jsMod r 2 = 0 from by rw [jsMod_two]; omega]
      simp only [ne_eq, not_true_eq_false, if_false]
      rw [col_floor_even hz c k hz1 hk]
      rw [hk]
    · obtain ⟨k, hk⟩ : ∃ k, c = 2 * k + 1 := ⟨c / 2, by omega⟩
      rw [show jsMod r 2 = (1 : ℤ) from by rw [jsMod_two]; omega]
      rw [if_pos (show (1 : ℤ) ≠ 0 from one_ne_zero)]
      rw [col_floor_odd hz c k hz1 hk, hk, Int.add_comm 1 (2 * k)]
  · simp only [if_true] at hnode
    obtain ⟨hEa, hEb⟩ := extent_bounds hz R scw hnode
    rw [row_floor_eval hz R r scw hz1 hr0 hrR hEa hEb]
    rcases Int.emod_two_eq r with hre | hro
    · obtain ⟨k, hk⟩ : ∃ k, c = 2 * k := ⟨c / 2, by omega⟩
      rw [show jsMod r 2 = 0 from by rw [jsMod_two]; omega]
      simp only [ne_eq, not_true_eq_false, if_false]
      rw [col_floor_even hz c k hz1 hk]
      rw [hk]
    · obtain ⟨k, hk⟩ : ∃ k, c = 2 * k + 1 := ⟨c / 2, by omega⟩
      rw [show jsMod r 2 = (1 : ℤ) from by rw [jsMod_two]; omega]
      rw [if_pos (show (1 : ℤ) ≠ 0 from one_ne_zero)]
      rw [col_floor_odd hz c k hz1 hk, hk, Int.add_comm 1 (2 * k)]

/-- C5 witness: grid height 3, circumradius 2, cell `(1, 1)` round-trips. -/
theorem hex_coordinate_roundtrip_witness :
    Hex._normalizedEventToPosition
      ⟨some ⟨10, 3, "hex", "#ccc", "#000", 15, 1, 0, "monospace", "", false⟩,
        ((2 : ℤ) : Q3) * Q3.sqrt3 / 2, ((2 : ℤ) : Q3) * (3 / 2), ((2 : ℤ) : Q3),
        ⟨"", "", "", 0,
          Q3.ceilq (((3 - 1 : ℤ) : Q3) * (((2 : ℤ) : Q3) * (3 / 2)) + 2 * ((2 : ℤ) : Q3)), []⟩,
        measure0⟩
      (Hex.cellCenter (((2 : ℤ) : Q3) * Q3.sqrt3 / 2) (((2 : ℤ) : Q3) * (3 / 2)) ((2 : ℤ) : Q3)
        false 1 1).1
      (Hex.cellCenter (((2 : ℤ) : Q3) * Q3.sqrt3 / 2) (((2 : ℤ) : Q3) * (3 / 2)) ((2 : ℤ) : Q3)
        false 1 1).2 = (1, 1) :=
  hex_coordinate_roundtrip _ ⟨10, 3, "hex", "#ccc", "#000", 15, 1, 0, "monospace", "", false⟩
    2 1 1 3 rfl rfl rfl rfl rfl rfl (by decide) (by decide) (by decide) (by decide) rfl

/-! ## C2: the hex size-fit / font-fit inverse fails on the code -/

/-- A linear monospace glyph metric with width ratio `0.4`: the glyph "W"
measures 40 units under the 100px probe font and `0.4 · 16 = 6.4` units
under every other font string arising in the run (the 16px char font). -/
def measC2 : String → ℚ := fun f => if f = "100px monospace" then 40 else 32/5

/-- The option set of the failing input: a 5×5 hex grid, spacing 1. -/
def oC2 : FrozenHexOptions := ⟨5, 5, "hex", "#ccc", "#000", 15, 1, 0, "monospace", "", false⟩

/-- The configured backend the failing `computeFontSize` call runs on. -/
def sC2 : HexState :=
  ⟨some oC2, 0, 0, 0, ⟨fontString "" 15 "monospace", "center", "middle", 0, 0, []⟩, measC2⟩

/-- The same backend with the returned font size 16 installed (options and
char font), before the geometry is recomputed. -/
def s16 : HexState :=
  ⟨some { oC2 with fontSize := 16 }, 0, 0, 0,
    ⟨fontString "" 16 "monospace", "center", "middle", 0, 0, []⟩, measC2⟩

/-- `computeFontSize(67, 73)` on the 5×5 grid returns 16. -/
theorem c2_fontsize : (Hex.computeFontSize sC2 67 73).1 = 16 := by
  simp only [Hex.computeFontSize, sC2, oC2, measC2, Bool.false_eq_true, if_false]
  rw [if_pos (show "100px " ++ "monospace" = "100px monospace" from rfl)]
  rw [show ⌈(40 : ℚ)⌉ = (40 : ℤ) from int_ceil_eval (by norm_num) (by norm_num)]
  rw [show (2 * (67 : Q3) / (((5 + 1 : ℤ) : Q3) * Q3.sqrt3) - 1) = ⟨-1, 67/9⟩ from by
    ext <;> norm_num]
  rw [show ((73 : Q3) / (2 + 3 / 2 * (((5 : ℤ) : Q3) - 1))) = ⟨73/8, 0⟩ from by
    ext <;> norm_num]
  rw [show Q3.minq ⟨-1, 67/9⟩ ⟨73/8, 0⟩ = ⟨73/8, 0⟩ from by
    rw [Q3.minq, if_neg]
    norm_num [Q3.le_def, Q3.Nonneg]]
  rw [show Q3.floorq ⟨73/8, 0⟩ = 9 from
    Q3.floorq_of (by norm_num [Q3.le_def, Q3.Nonneg])
      (by norm_num [Q3.lt_def, Q3.le_def, Q3.Nonneg])]
  rw [show (2 * (((9 + 1 : ℤ)) : Q3) / (((1 : ℚ) : Q3) * (1 + (((40 : ℤ) / 100 : ℚ) : Q3) / Q3.sqrt3))) =
      ⟨1500/71, -200/71⟩ from by ext <;> norm_num]
  rw [show Q3.ceilq ⟨1500/71, -200/71⟩ = 17 from
    Q3.ceilq_of (by norm_num [Q3.lt_def, Q3.le_def, Q3.Nonneg])
      (by norm_num [Q3.le_def, Q3.Nonneg])]
  decide

/-- At font size 16 the recomputed circumradius is 10. -/
theorem c2_hexsize : (Hex._updateSize s16)._hexSize = ((10 : ℤ) : Q3) := by
  simp only [Hex._updateSize, s16, oC2, measC2]
  rw [if_neg (show ¬ (fontString "" 16 "monospace" = "100px monospace") from by decide)]
  rw [show ⌈(32 / 5 : ℚ)⌉ = (7 : ℤ) from int_ceil_eval (by norm_num) (by norm_num)]
  rw [show (((1 : ℚ) : Q3) * (((16 : ℤ) : Q3) + ((7 : ℤ) : Q3) / Q3.sqrt3) / 2) = ⟨8, 7/6⟩ from by
    ext <;> norm_num]
  rw [show Q3.floorq ⟨8, 7/6⟩ = 10 from
    Q3.floorq_of (by norm_num [Q3.le_def, Q3.Nonneg])
      (by norm_num [Q3.lt_def, Q3.le_def, Q3.Nonneg])]

/-- With the geometry recomputed from font size 16, only 4 rows fit in the
73-pixel height. -/
theorem c2_rows : (Hex.computeSize (Hex._updateSize s16) 67 73).2 = 4 := by
  simp only [Hex.computeSize, Hex._updateSize, s16, oC2, measC2, Bool.false_eq_true, if_false]
  rw [if_neg (show ¬ (fontString "" 16 "monospace" = "100px monospace") from by decide)]
  rw [show ⌈(32 / 5 : ℚ)⌉ = (7 : ℤ) from int_ceil_eval (by norm_num) (by norm_num)]
  rw [show (((1 : ℚ) : Q3) * (((16 : ℤ) : Q3) + ((7 : ℤ) : Q3) / Q3.sqrt3) / 2) = ⟨8, 7/6⟩ from by
    ext <;> norm_num]
  rw [show Q3.floorq ⟨8, 7/6⟩ = 10 from
    Q3.floorq_of (by norm_num [Q3.le_def, Q3.Nonneg])
      (by norm_num [Q3.lt_def, Q3.le_def, Q3.Nonneg])]
  rw [show (((73 : Q3) - 2 * ((10 : ℤ) : Q3)) / (((10 : ℤ) : Q3) * (3 / 2)) + 1) = ⟨68/15, 0⟩ from by
    ext <;> norm_num]
  rw [show Q3.floorq ⟨68/15, 0⟩ = 4 from
    Q3.floorq_of (by norm_num [Q3.le_def, Q3.Nonneg])
      (by norm_num [Q3.lt_def, Q3.le_def, Q3.Nonneg])]

/-- With the geometry recomputed from font size 16, the vertical canvas
extent of the 5×5 grid is 80, exceeding the 73-pixel box. -/
theorem c2_height : (73 : ℤ) < (Hex._updateSize s16).ctx.canvasHeight := by
  simp only [Hex._updateSize, s16, oC2, measC2, Bool.false_eq_true, if_false]
  rw [if_neg (show ¬ (fontString "" 16 "monospace" = "100px monospace") from by decide)]
  rw [show ⌈(32 / 5 : ℚ)⌉ = (7 : ℤ) from int_ceil_eval (by norm_num) (by norm_num)]
  rw [show (((1 : ℚ) : Q3) * (((16 : ℤ) : Q3) + ((7 : ℤ) : Q3) / Q3.sqrt3) / 2) = ⟨8, 7/6⟩ from by
    ext <;> norm_num]
  rw [show Q3.floorq ⟨8, 7/6⟩ = 10 from
    Q3.floorq_of (by norm_num [Q3.le_def, Q3.Nonneg])
      (by norm_num [Q3.lt_def, Q3.le_def, Q3.Nonneg])]
  rw [show ((((5 - 1 : ℤ)) : Q3) * (((10 : ℤ) : Q3) * (3 / 2)) + 2 * ((10 : ℤ) : Q3)) = ⟨80, 0⟩ from by
    ext <;> norm_num]
  rw [show Q3.ceilq ⟨80, 0⟩ = 80 from
    Q3.ceilq_of (by norm_num [Q3.lt_def, Q3.le_def, Q3.Nonneg])
      (by norm_num [Q3.le_def, Q3.Nonneg])]
  decide

/-- C2: the size-fit / font-fit inverse property fails on the code.  At
the failing input — desired grid 5×5, pixel box 67×73, spacing 1, a
monospace metric with glyph/font ratio 0.4 — `computeFontSize` returns 16,
yet with the geometry recomputed from font size 16 (circumradius 10) the
grid that fits has only 4 < 5 rows and the pixel extent of the 5×5 grid
is 80 > 73: the returned font size does not fit the box, contradicting
`computeFontSize`'s documented contract ("Compute the maximum font size
to fit into a set of given constraints", types.ts lines 132–136).  The
slip is the `Math.floor(hexSize) + 1` ("closest larger hexSize") rounding
in hex.ts line 96, which the later `Math.ceil(fontSize) - 1` does not
compensate. -/
theorem hex_font_fit_violation :
    (Hex.computeFontSize sC2 67 73).1 = 16 ∧
    (Hex._updateSize s16)._hexSize = ((10 : ℤ) : Q3) ∧
    (Hex.computeSize (Hex._updateSize s16) 67 73).2 < oC2.height ∧
    (73 : ℤ) < (Hex._updateSize s16).ctx.canvasHeight :=
  ⟨c2_fontsize, c2_hexsize, by rw [c2_rows]; decide, c2_height⟩
